import Mathlib

/-!
Shallow embedding of `src/MCP-Agent/AgentCore/agent_core.py`.

The source's `main` logs "Agent Core started" (and prints the same line to the
console), then loops forever: inside a `try` it runs `time.sleep(10)` followed
by `logger.info("Agent heartbeat")`; `except KeyboardInterrupt` logs
"Agent stopping" and breaks; `except Exception as e` logs
`f"Error in agent loop: {e}"` (the error message only) and then runs
`time.sleep(5)` — note that this backoff sleep is inside the handler, outside
the `try`, so a `KeyboardInterrupt` arriving during it propagates uncaught.

The embedding drives the loop with a finite schedule of per-tick outcomes
(the environment's choices: does the interval sleep complete, does the tick
body raise, is the backoff sleep interrupted). Suspension points are the two
sleeps; a run over a finite schedule that never breaks is reported as still
running. Each iteration contributes its observable actions — sleeps (with the
requested duration and whether they completed) and log lines — to a trace.
-/

namespace AgentCore

/-- Which of the two `time.sleep` calls of the source an action comes from:
the normal interval sleep (`time.sleep(10)`) or the error-backoff sleep
(`time.sleep(5)`). -/
inductive SleepKind
  | interval
  | backoff
  deriving DecidableEq, Repr

/-- One observable action of a run: a sleep (with the requested duration in
seconds and whether it ran to completion or was cut short by a
`KeyboardInterrupt`), a `logger.info` line, a `logger.error` line, or a
`print` to the console. -/
inductive Action
  | sleep (k : SleepKind) (seconds : Nat) (completed : Bool)
  | logInfo (msg : String)
  | logError (msg : String)
  | consoleOut (msg : String)
  deriving DecidableEq, Repr

/-- The environment's choice for one iteration of the `while True` loop:
`ok`        — the interval sleep completes and the heartbeat is logged;
`interrupted` — a `KeyboardInterrupt` arrives during the interval sleep;
`errored m bi` — the tick body raises an `Exception` whose message is `m`
(`str(e)`), and `bi` says whether a `KeyboardInterrupt` arrives during the
subsequent backoff sleep. -/
inductive TickOutcome
  | ok
  | interrupted
  | errored (msg : String) (backoffInterrupted : Bool)
  deriving DecidableEq, Repr

/-- How a (finite) run ended: the schedule ran out with the loop still in its
`while True` (still running); the loop hit `break` after catching a
`KeyboardInterrupt` (clean stop); or a `KeyboardInterrupt` during the backoff
sleep propagated out of `main` uncaught. -/
inductive ExitStatus
  | stillRunning
  | stoppedCleanly
  | uncaughtInterrupt
  deriving DecidableEq, Repr

/-- The duration of the source's interval sleep: `time.sleep(10)`. -/
def intervalSeconds : Nat := 10

/-- The duration of the source's error-backoff sleep: `time.sleep(5)`. -/
def errorBackoffSeconds : Nat := 5

/-- The actions one iteration of the loop contributes to the trace, per
outcome. A failed tick's own partial work before the exception is not
modelled; only its logged outcome and the backoff sleep are. -/
def tickActions : TickOutcome → List Action
  | .ok => [.sleep .interval intervalSeconds true, .logInfo "Agent heartbeat"]
  | .interrupted => [.sleep .interval intervalSeconds false, .logInfo "Agent stopping"]
  | .errored m bi =>
      [.logError ("Error in agent loop: " ++ m), .sleep .backoff errorBackoffSeconds (!bi)]

/-- Whether a `KeyboardInterrupt` (cancellation) is delivered during this
iteration. -/
def cancelled : TickOutcome → Bool
  | .ok => false
  | .interrupted => true
  | .errored _ bi => bi

/-- The `while True` loop of `main`, driven by a finite schedule of outcomes.
`ok` and `errored _ false` iterations append their actions and continue;
`interrupted` catches the `KeyboardInterrupt`, logs "Agent stopping" and
breaks; `errored _ true` logs the error and then the `KeyboardInterrupt`
raised inside the handler's `time.sleep(5)` propagates uncaught. -/
def agentLoop : List TickOutcome → List Action × ExitStatus
  | [] => ([], .stillRunning)
  | .ok :: rest =>
      (tickActions .ok ++ (agentLoop rest).1, (agentLoop rest).2)
  | .interrupted :: _ =>
      (tickActions .interrupted, .stoppedCleanly)
  | .errored m false :: rest =>
      (tickActions (.errored m false) ++ (agentLoop rest).1, (agentLoop rest).2)
  | .errored m true :: _ =>
      (tickActions (.errored m true), .uncaughtInterrupt)

/-- The source's `main`: log and print "Agent Core started", then the loop. -/
def main (sched : List TickOutcome) : List Action × ExitStatus :=
  (.logInfo "Agent Core started" :: .consoleOut "Agent Core started" :: (agentLoop sched).1,
   (agentLoop sched).2)

/-- Whether an action is a log event (a line written through the logger). -/
def isLog : Action → Bool
  | .logInfo _ => true
  | .logError _ => true
  | _ => false

/-- Whether an action is an error-level log event. -/
def isErrorLog : Action → Bool
  | .logError _ => true
  | _ => false

/-- The log events of a trace, in order. -/
def logEvents (tr : List Action) : List Action := tr.filter isLog

/-- Simulated-time run of the loop in the all-ticks-succeed case: starting a
sleep at time `t`, it either completes at `t + intervalSeconds` and the
heartbeat is logged then, or the cancellation arriving at `cancelAt` (with
`t ≤ cancelAt < t + intervalSeconds`) interrupts it and "Agent stopping" is
logged at `cancelAt`. `fuel` bounds the number of iterations examined. -/
def timedLoop (cancelAt : Nat) : Nat → Nat → List (Nat × String)
  | 0, _ => []
  | fuel + 1, t =>
      if cancelAt < t + intervalSeconds then
        [(cancelAt, "Agent stopping")]
      else
        (t + intervalSeconds, "Agent heartbeat") :: timedLoop cancelAt fuel (t + intervalSeconds)

/-- Simulated-time run of `main` (all ticks succeed): the startup line at
time 0, then the loop from time 0. -/
def timedMain (cancelAt fuel : Nat) : List (Nat × String) :=
  (0, "Agent Core started") :: timedLoop cancelAt fuel 0

/-! Helper lemmas about the loop. -/

lemma agentLoop_cons_nocancel (o : TickOutcome) (rest : List TickOutcome)
    (h : cancelled o = false) :
    agentLoop (o :: rest) = (tickActions o ++ (agentLoop rest).1, (agentLoop rest).2) := by
  cases o with
  | ok => rfl
  | interrupted => simp [cancelled] at h
  | errored m bi =>
      cases bi with
      | false => rfl
      | true => simp [cancelled] at h

lemma agentLoop_cons_cancel (o : TickOutcome) (rest : List TickOutcome)
    (h : cancelled o = true) :
    agentLoop (o :: rest) =
      (tickActions o,
       if o = TickOutcome.interrupted then ExitStatus.stoppedCleanly
       else ExitStatus.uncaughtInterrupt) := by
  cases o with
  | ok => simp [cancelled] at h
  | interrupted => rfl
  | errored m bi =>
      cases bi with
      | false => simp [cancelled] at h
      | true => simp [agentLoop]

lemma agentLoop_nocancel (sched : List TickOutcome)
    (h : ∀ o ∈ sched, cancelled o = false) :
    agentLoop sched = ((sched.map tickActions).flatten, ExitStatus.stillRunning) := by
  induction sched with
  | nil => rfl
  | cons o rest ih =>
      have ho : cancelled o = false := h o (List.mem_cons_self o rest)
      have hrest : ∀ o' ∈ rest, cancelled o' = false := fun o' h' => h o' (List.mem_cons_of_mem o h')
      rw [agentLoop_cons_nocancel o rest ho, ih hrest]
      simp

lemma agentLoop_append_nocancel (pre rest : List TickOutcome)
    (h : ∀ o ∈ pre, cancelled o = false) :
    agentLoop (pre ++ rest) =
      ((pre.map tickActions).flatten ++ (agentLoop rest).1, (agentLoop rest).2) := by
  induction pre with
  | nil => simp
  | cons o pre' ih =>
      have ho : cancelled o = false := h o (List.mem_cons_self o pre')
      have hpre : ∀ o' ∈ pre', cancelled o' = false := fun o' h' => h o' (List.mem_cons_of_mem o h')
      rw [List.cons_append, agentLoop_cons_nocancel o (pre' ++ rest) ho, ih hpre]
      simp

lemma mem_agentLoop_of_mem (sched : List TickOutcome) (a : Action)
    (h : a ∈ (agentLoop sched).1) : ∃ o, a ∈ tickActions o := by
  induction sched with
  | nil => simp [agentLoop] at h
  | cons o rest ih =>
      cases o with
      | ok =>
          rw [agentLoop] at h
          rcases List.mem_append.mp h with h' | h'
          · exact ⟨.ok, h'⟩
          · exact ih h'
      | interrupted => exact ⟨.interrupted, h⟩
      | errored m bi =>
          cases bi with
          | false =>
              rw [agentLoop] at h
              rcases List.mem_append.mp h with h' | h'
              · exact ⟨.errored m false, h'⟩
              · exact ih h'
          | true => exact ⟨.errored m true, h⟩

lemma sleep_duration_of_mem_tickActions (o : TickOutcome) (k : SleepKind) (n : Nat) (c : Bool)
    (h : Action.sleep k n c ∈ tickActions o) :
    (k = SleepKind.interval → n = intervalSeconds) ∧
    (k = SleepKind.backoff → n = errorBackoffSeconds) := by
  cases o with
  | ok =>
      simp [tickActions] at h
      obtain ⟨hk, hn, _⟩ := h
      subst hk; subst hn
      exact ⟨fun _ => rfl, fun hkb => by cases hkb⟩
  | interrupted =>
      simp [tickActions] at h
      obtain ⟨hk, hn, _⟩ := h
      subst hk; subst hn
      exact ⟨fun _ => rfl, fun hkb => by cases hkb⟩
  | errored m bi =>
      simp [tickActions] at h
      obtain ⟨hk, hn, _⟩ := h
      subst hk; subst hn
      exact ⟨fun hki => SleepKind.noConfusion hki, fun _ => rfl⟩

lemma errorSched_log_count (msgs : List String) :
    ((((msgs.map fun m => TickOutcome.errored m false).map tickActions).flatten).filter
        isErrorLog).length = msgs.length := by
  induction msgs with
  | nil => rfl
  | cons m rest ih => simpa [tickActions, isErrorLog] using ih

/-! Theorems for the claims. -/

/-- Claim C1: a run whose tick bodies raise N consecutive non-cancellation
errors logs exactly N error events, every one is caught (the exit status is
`stillRunning`, so nothing propagated out of the loop and the process was not
terminated), and the loop is still running afterwards. -/
theorem c1_error_isolation (msgs : List String) :
    ((main (msgs.map fun m => TickOutcome.errored m false)).1.filter isErrorLog).length
        = msgs.length
    ∧ (main (msgs.map fun m => TickOutcome.errored m false)).2 = ExitStatus.stillRunning := by
  have hnc : ∀ o ∈ msgs.map fun m => TickOutcome.errored m false, cancelled o = false := by
    intro o ho
    rcases List.mem_map.mp ho with ⟨m, _, rfl⟩
    rfl
  have hloop := agentLoop_nocancel _ hnc
  constructor
  · simp only [main, hloop]
    simpa [isErrorLog] using errorSched_log_count msgs
  · simp only [main, hloop]

/-- Claim C2: cancelling while the first or the second interval sleep is in
flight (the cancellation arriving around the completion of the first
suspension) yields the log-event trace started, stopping — or started,
heartbeat, stopping: exactly one "started" event, zero or one "heartbeat"
events and exactly one "stopping" event, in that order. -/
theorem c2_first_cancellation_events (sched : List TickOutcome)
    (h : sched = [TickOutcome.interrupted]
        ∨ sched = [TickOutcome.ok, TickOutcome.interrupted]) :
    logEvents (main sched).1
        = [Action.logInfo "Agent Core started", Action.logInfo "Agent stopping"]
    ∨ logEvents (main sched).1
        = [Action.logInfo "Agent Core started", Action.logInfo "Agent heartbeat",
           Action.logInfo "Agent stopping"] := by
  rcases h with rfl | rfl
  · left; rfl
  · right; rfl

/-- Witness for C2 at the concrete schedule with cancellation during the
first interval sleep. -/
theorem c2_first_cancellation_events_witness :
    logEvents (main [TickOutcome.interrupted]).1
        = [Action.logInfo "Agent Core started", Action.logInfo "Agent stopping"]
    ∨ logEvents (main [TickOutcome.interrupted]).1
        = [Action.logInfo "Agent Core started", Action.logInfo "Agent heartbeat",
           Action.logInfo "Agent stopping"] :=
  c2_first_cancellation_events [TickOutcome.interrupted] (Or.inl rfl)

/-- Claim C3: whenever the cancellation arrives during an interval sleep —
after any prefix of iterations the loop survived — the run's whole trace is
the startup lines, the surviving iterations' actions, the cut-short interval
sleep and an INFO-level "Agent stopping" line, and the loop breaks cleanly
(exit status `stoppedCleanly`, not an uncaught propagation): cancellation is
a normal terminal transition, not an error. -/
theorem c3_cancel_during_interval_sleep (pre rest : List TickOutcome)
    (h : ∀ o ∈ pre, cancelled o = false) :
    (main (pre ++ TickOutcome.interrupted :: rest)).1
        = Action.logInfo "Agent Core started" :: Action.consoleOut "Agent Core started"
            :: (pre.map tickActions).flatten
            ++ [Action.sleep SleepKind.interval intervalSeconds false,
                Action.logInfo "Agent stopping"]
    ∧ (main (pre ++ TickOutcome.interrupted :: rest)).2 = ExitStatus.stoppedCleanly := by
  have happ := agentLoop_append_nocancel pre (TickOutcome.interrupted :: rest) h
  constructor
  · simp only [main, happ]
    rfl
  · simp only [main, happ]
    rfl

/-- Witness for C3: one successful tick, then cancellation during the second
interval sleep. -/
theorem c3_cancel_during_interval_sleep_witness :
    (main ([TickOutcome.ok] ++ TickOutcome.interrupted :: [])).1
        = Action.logInfo "Agent Core started" :: Action.consoleOut "Agent Core started"
            :: ([TickOutcome.ok].map tickActions).flatten
            ++ [Action.sleep SleepKind.interval intervalSeconds false,
                Action.logInfo "Agent stopping"]
    ∧ (main ([TickOutcome.ok] ++ TickOutcome.interrupted :: [])).2
        = ExitStatus.stoppedCleanly :=
  c3_cancel_during_interval_sleep [TickOutcome.ok] [] (by decide)

/-- Counterexample to claim C4 as stated: a `KeyboardInterrupt` arriving
during the error-backoff sleep does not lead to the stopping transition. In
the run whose single tick raises "boom" and whose backoff sleep is
interrupted, the `KeyboardInterrupt` is raised inside the `except Exception`
handler — outside the `try` — so it propagates uncaught: the run ends with
`uncaughtInterrupt` and no "Agent stopping" line is ever logged. -/
theorem c4_backoff_cancel_counterexample :
    (main [TickOutcome.errored "boom" true]).2 = ExitStatus.uncaughtInterrupt
    ∧ Action.logInfo "Agent stopping" ∉ (main [TickOutcome.errored "boom" true]).1 := by
  constructor
  · rfl
  · decide

/-- Amended claim C4: both sleeps are interruptible and a cancellation
arriving during either one is observed before any further tick starts — the
trace ends with the cancelled iteration and nothing from the remaining
schedule, so cancellation latency is bounded by the one in-flight sleep. A
cancellation during the normal interval sleep leads to the stopping
transition (`stoppedCleanly`); a cancellation during the error-backoff sleep
instead propagates out of the loop uncaught (`uncaughtInterrupt`), without a
stopping transition. -/
theorem c4_cancellation_observed_within_one_sleep (pre rest : List TickOutcome) (m : String)
    (h : ∀ o ∈ pre, cancelled o = false) :
    ((main (pre ++ TickOutcome.interrupted :: rest)).1
        = Action.logInfo "Agent Core started" :: Action.consoleOut "Agent Core started"
            :: (pre.map tickActions).flatten ++ tickActions TickOutcome.interrupted
      ∧ (main (pre ++ TickOutcome.interrupted :: rest)).2 = ExitStatus.stoppedCleanly)
    ∧ ((main (pre ++ TickOutcome.errored m true :: rest)).1
        = Action.logInfo "Agent Core started" :: Action.consoleOut "Agent Core started"
            :: (pre.map tickActions).flatten ++ tickActions (TickOutcome.errored m true)
      ∧ (main (pre ++ TickOutcome.errored m true :: rest)).2
            = ExitStatus.uncaughtInterrupt) := by
  have h1 := agentLoop_append_nocancel pre (TickOutcome.interrupted :: rest) h
  have h2 := agentLoop_append_nocancel pre (TickOutcome.errored m true :: rest) h
  exact ⟨⟨by simp only [main, h1]; rfl, by simp only [main, h1]; rfl⟩,
         ⟨by simp only [main, h2]; rfl, by simp only [main, h2]; rfl⟩⟩

/-- Witness for the amended C4 at the empty prefix. -/
theorem c4_cancellation_observed_within_one_sleep_witness :
    ((main ([] ++ TickOutcome.interrupted :: [])).1
        = Action.logInfo "Agent Core started" :: Action.consoleOut "Agent Core started"
            :: (([] : List TickOutcome).map tickActions).flatten
            ++ tickActions TickOutcome.interrupted
      ∧ (main ([] ++ TickOutcome.interrupted :: [])).2 = ExitStatus.stoppedCleanly)
    ∧ ((main ([] ++ TickOutcome.errored "boom" true :: [])).1
        = Action.logInfo "Agent Core started" :: Action.consoleOut "Agent Core started"
            :: (([] : List TickOutcome).map tickActions).flatten
            ++ tickActions (TickOutcome.errored "boom" true)
      ∧ (main ([] ++ TickOutcome.errored "boom" true :: [])).2
            = ExitStatus.uncaughtInterrupt) :=
  c4_cancellation_observed_within_one_sleep [] [] "boom" (by decide)

/-- Claim C5 (code side): `main` takes no configuration and performs no
validation — in every run its very first action is the unconditional
INFO-level "Agent Core started" line, after which the loop begins with the
hard-coded sleeps; no run withholds the "started" event and no `ConfigError`
path exists anywhere in the source. -/
theorem c5_started_always_emitted_first (sched : List TickOutcome) :
    (main sched).1.head? = some (Action.logInfo "Agent Core started") := rfl

/-- Claim C6: the loop exits only when a cancellation signal is delivered:
over any finite schedule, the run is still inside `while True` exactly when no
iteration was cancelled; without cancellation it keeps ticking. -/
theorem c6_exits_only_on_cancellation (sched : List TickOutcome) :
    (main sched).2 = ExitStatus.stillRunning ↔ ∀ o ∈ sched, cancelled o = false := by
  show (agentLoop sched).2 = ExitStatus.stillRunning ↔ _
  induction sched with
  | nil => simp [agentLoop]
  | cons o rest ih =>
      cases o with
      | ok => simpa [agentLoop, cancelled] using ih
      | interrupted => simp [agentLoop, cancelled]
      | errored m bi =>
          cases bi with
          | false => simpa [agentLoop, cancelled] using ih
          | true => simp [agentLoop, cancelled]

/-- Claim C7: in the simulated-time run with the source's 10-second interval
where every tick body succeeds and cancellation arrives at 25 seconds, the
emitted sequence — for any fuel covering at least the three iterations the
scenario touches — is exactly: started at 0s, heartbeat at 10s, heartbeat at
20s, stopping at 25s. -/
theorem c7_scenario_cancel_at_25 (extra : Nat) :
    timedMain 25 (extra + 3)
        = [(0, "Agent Core started"), (10, "Agent heartbeat"),
           (20, "Agent heartbeat"), (25, "Agent stopping")] := by
  show (0, "Agent Core started") :: timedLoop 25 (extra + 3) 0 = _
  rw [timedLoop]
  norm_num [intervalSeconds]
  rw [timedLoop]
  norm_num [intervalSeconds]
  rw [timedLoop]
  norm_num [intervalSeconds]

/-- Claim C8: when a tick body raises an error with message `m` and no
cancellation arrives during the backoff, the iteration logs exactly one
ERROR-level event whose text is the fixed prefix plus the error's message
(`str(e)` only — the embedding's exception carries nothing but its message,
matching the source's `f"Error in agent loop: {e}"`, so no stack trace can
appear), then completes a sleep of `errorBackoffSeconds`, and the loop
continues exactly as it would on the remaining schedule. -/
theorem c8_error_event_message_then_backoff (m : String) (rest : List TickOutcome) :
    agentLoop (TickOutcome.errored m false :: rest)
        = (Action.logError ("Error in agent loop: " ++ m)
            :: Action.sleep SleepKind.backoff errorBackoffSeconds true
            :: (agentLoop rest).1,
           (agentLoop rest).2) := rfl

/-- Claim C9: the sleep durations are fixed constants of the source: in the
trace of any run, every interval sleep requests exactly `intervalSeconds`
(10) and every backoff sleep requests exactly `errorBackoffSeconds` (5) — no
iteration ever uses a different value. -/
theorem c9_sleep_durations_fixed (sched : List TickOutcome) (k : SleepKind) (n : Nat)
    (c : Bool) (h : Action.sleep k n c ∈ (main sched).1) :
    (k = SleepKind.interval → n = intervalSeconds) ∧
    (k = SleepKind.backoff → n = errorBackoffSeconds) := by
  have hmem : Action.sleep k n c ∈ (agentLoop sched).1 := by
    simp only [main, List.mem_cons] at h
    rcases h with h1 | h1 | h1
    · cases h1
    · cases h1
    · exact h1
  obtain ⟨o, ho⟩ := mem_agentLoop_of_mem sched _ hmem
  exact sleep_duration_of_mem_tickActions o k n c ho

/-- Witness for C9: the completed interval sleep of one successful tick. -/
theorem c9_sleep_durations_fixed_witness :
    Action.sleep SleepKind.interval 10 true ∈ (main [TickOutcome.ok]).1
    ∧ ((SleepKind.interval = SleepKind.interval → 10 = intervalSeconds) ∧
       (SleepKind.interval = SleepKind.backoff → 10 = errorBackoffSeconds)) :=
  ⟨by decide, c9_sleep_durations_fixed [TickOutcome.ok] SleepKind.interval 10 true (by decide)⟩

/-- Claim C10: every iteration of the loop logs exactly one event — a
heartbeat, a stopping line, or an error line — never both a heartbeat and an
error in the same iteration; and an iteration that logs the stopping line
ends the loop: whatever schedule remains, the run contributes the stopping
iteration's actions and terminates cleanly, emitting nothing further. -/
theorem c10_one_log_event_per_iteration (o : TickOutcome) (rest : List TickOutcome) :
    ((tickActions o).filter isLog).length = 1
    ∧ ¬(Action.logInfo "Agent heartbeat" ∈ tickActions o
        ∧ ∃ s, Action.logError s ∈ tickActions o)
    ∧ agentLoop (TickOutcome.interrupted :: rest)
        = (tickActions TickOutcome.interrupted, ExitStatus.stoppedCleanly) := by
  refine ⟨?_, ?_, rfl⟩
  · cases o with
    | ok => rfl
    | interrupted => rfl
    | errored m bi => rfl
  · cases o with
    | ok =>
        rintro ⟨-, s, hs⟩
        simp [tickActions] at hs
    | interrupted =>
        rintro ⟨hh, -⟩
        simp [tickActions] at hh
    | errored m bi =>
        rintro ⟨hh, -⟩
        simp [tickActions] at hh

end AgentCore
